import Mathlib

/-- Python `str.strip()`: remove leading and trailing whitespace. -/
def pyStrip (s : String) : String :=
  (((s.data.dropWhile Char.isWhitespace).reverse.dropWhile Char.isWhitespace).reverse).asString

/-- Helper for `pySplit`: walk the characters, accumulating the current word
(in reverse); whitespace closes the current word, empty words are dropped. -/
def pyWordsAux : List Char → List Char → List (List Char)
  | [], cur => if cur = [] then [] else [cur.reverse]
  | c :: rest, cur =>
    if c.isWhitespace then
      if cur = [] then pyWordsAux rest [] else cur.reverse :: pyWordsAux rest []
    else
      pyWordsAux rest (c :: cur)

/-- Python `str.split()` with no argument: the whitespace-separated words. -/
def pySplit (s : String) : List String :=
  (pyWordsAux s.data []).map List.asString

/-- Python `len(s.split())`: the number of whitespace-separated words. -/
def pyWordCount (s : String) : Nat :=
  (pySplit s).length

/-- Python `sep.join(parts)`. -/
def pyJoin (sep : String) : List String → String
  | [] => ""
  | [t] => t
  | t :: rest => t ++ sep ++ pyJoin sep rest

/-- A transcription segment as consumed by `_create_time_chunks`:
the dict keys `start`, `end`, `text`. -/
structure Segment where
  start : ℚ
  «end» : ℚ
  text : String
deriving DecidableEq, Repr

/-- A chunk as produced by `_create_time_chunks`: the dict keys
`start_time`, `end_time`, `text`, `segment_count`. -/
structure Chunk where
  start_time : ℚ
  end_time : ℚ
  text : String
  segment_count : Nat
deriving DecidableEq, Repr

/-- The loop body of `_create_time_chunks`: the state is the list of closed
chunks together with the current chunk. -/
def chunkStep (d : ℤ) (acc : List Chunk × Chunk) (seg : Segment) : List Chunk × Chunk :=
  let done := acc.1
  let cur := acc.2
  if seg.start ≥ cur.end_time then
    let done' := if pyStrip cur.text ≠ "" then done ++ [cur] else done
    let cs : ℚ := (⌊seg.start / (d : ℚ)⌋ : ℚ) * (d : ℚ)
    (done', ⟨cs, cs + (d : ℚ), seg.text, 1⟩)
  else
    (done, ⟨cur.start_time, max cur.end_time seg.«end»,
            cur.text ++ " " ++ seg.text, cur.segment_count + 1⟩)

/-- `_create_time_chunks(segments, chunk_duration)` from `transcriber.py`. -/
def _create_time_chunks (segments : List Segment) (d : ℤ) : List Chunk :=
  let init : Chunk := ⟨0, (d : ℚ), "", 0⟩
  let res := segments.foldl (chunkStep d) ([], init)
  if pyStrip res.2.text ≠ "" then res.1 ++ [res.2] else res.1

/-- `_create_time_chunks` instrumented with ghost state: alongside each chunk we
record the segments assigned to it (`segs`), the segments that were folded in via
the accumulate branch (`accSegs`, i.e. all assigned segments except one that
opened a fresh chunk), and whether the chunk was opened by the rollover branch
(`fromRollover`; the initial chunk is not). -/
structure ChunkR where
  chunk : Chunk
  segs : List Segment
  accSegs : List Segment
  fromRollover : Bool
deriving DecidableEq, Repr

/-- The loop body of `_create_time_chunks` with ghost state. -/
def chunkStepR (d : ℤ) (acc : List ChunkR × ChunkR) (seg : Segment) :
    List ChunkR × ChunkR :=
  let done := acc.1
  let cur := acc.2
  if seg.start ≥ cur.chunk.end_time then
    let done' := if pyStrip cur.chunk.text ≠ "" then done ++ [cur] else done
    let cs : ℚ := (⌊seg.start / (d : ℚ)⌋ : ℚ) * (d : ℚ)
    (done', ⟨⟨cs, cs + (d : ℚ), seg.text, 1⟩, [seg], [], true⟩)
  else
    (done, ⟨⟨cur.chunk.start_time, max cur.chunk.end_time seg.«end»,
             cur.chunk.text ++ " " ++ seg.text, cur.chunk.segment_count + 1⟩,
            cur.segs ++ [seg], cur.accSegs ++ [seg], cur.fromRollover⟩)

/-- `_create_time_chunks` with ghost state; projects onto `_create_time_chunks`
(see `createTimeChunksR_proj`). -/
def createTimeChunksR (segments : List Segment) (d : ℤ) : List ChunkR :=
  let init : ChunkR := ⟨⟨0, (d : ℚ), "", 0⟩, [], [], false⟩
  let res := segments.foldl (chunkStepR d) ([], init)
  if pyStrip res.2.chunk.text ≠ "" then res.1 ++ [res.2] else res.1

/-- Invariant for monotonicity of chunk start times: closed chunks are sorted
and bounded by the current chunk, whose start is an integer multiple of the
chunk duration and whose end is at least one duration later. -/
def MonoInv (d : ℤ) (st : List Chunk × Chunk) : Prop :=
  st.1.Pairwise (fun a b => a.start_time ≤ b.start_time) ∧
  (∀ c ∈ st.1, c.start_time ≤ st.2.start_time) ∧
  (∃ k : ℤ, st.2.start_time = (k : ℚ) * (d : ℚ)) ∧
  st.2.start_time + (d : ℚ) ≤ st.2.end_time

/-- Invariant: the end time of every chunk dominates the `end` of every segment
folded into it via the accumulate branch. -/
def WidenInv (st : List ChunkR × ChunkR) : Prop :=
  (∀ r ∈ st.1, ∀ s ∈ r.accSegs, s.«end» ≤ r.chunk.end_time) ∧
  (∀ s ∈ st.2.accSegs, s.«end» ≤ st.2.chunk.end_time)

/-- Invariant: every closed chunk has non-whitespace text. -/
def NonBlankInv (st : List Chunk × Chunk) : Prop :=
  ∀ c ∈ st.1, ¬ pyStrip c.text = ""

/-- Space-joined concatenation with one leading space per element: the text
shape accumulated by the initial (non-rollover) chunk. -/
def leadSpaceJoin : List String → String
  | [] => ""
  | t :: rest => " " ++ t ++ leadSpaceJoin rest

/-- The text of a chunk is determined by its assigned segments: a rollover chunk
holds the space-joined segment texts, the initial chunk additionally carries one
leading space per segment. -/
def TextOk (r : ChunkR) : Prop :=
  (r.fromRollover = true →
    r.segs ≠ [] ∧ r.chunk.text = pyJoin " " (r.segs.map Segment.text)) ∧
  (r.fromRollover = false →
    r.chunk.text = leadSpaceJoin (r.segs.map Segment.text))

def TextInv (st : List ChunkR × ChunkR) : Prop :=
  (∀ r ∈ st.1, TextOk r) ∧ TextOk st.2

/-- Outcome of the Gemini `generate_content` call, as observed by `summarize`:
a raised exception with message `msg`; a response without text content
(`info` stands for the block/finish/safety details appended to the error
message); or a response with text `t`. -/
inductive ApiResult where
  | failure (msg : String)
  | noText (info : String)
  | text (t : String)
deriving DecidableEq, Repr

/-- A Python exception as raised by `summarize`: either a `ValueError` or a
`RuntimeError`, with its message (`str(e)`). -/
inductive PyError where
  | valueError (msg : String)
  | runtimeError (msg : String)
deriving DecidableEq, Repr

/-- Python `str(e)` on a caught exception: its message. -/
def errStr : PyError → String
  | .valueError m => m
  | .runtimeError m => m

def validTypes : List String := ["brief", "comprehensive", "bullet_points"]

def tooShortMsg : String :=
  "Text too short for meaningful summarization (minimum 50 words)"

/-- `f"Invalid summary_type. Must be one of: {valid_types}"` with Python's
rendering of the list (its quotes written as `\x27`). -/
def invalidTypeMsg : String :=
  "Invalid summary_type. Must be one of: [\x27brief\x27, \x27comprehensive\x27, \x27bullet_points\x27]"

def briefInstr : String :=
  "Please provide a BRIEF summary (2-3 sentences) that captures the main topic and key message of this podcast episode."

def comprehensiveInstr : String :=
  "Please provide a COMPREHENSIVE summary that includes:\n1. Main topic and theme\n2. Key points and arguments presented\n3. Important insights or takeaways\n4. Notable quotes or memorable moments\n5. Overall conclusions or call-to-action\n\nFormat your response in clear paragraphs with appropriate headings."

def bulletInstr : String :=
  "Please provide a summary in BULLET POINT format that includes:\n• Main topic and theme\n• Key points discussed (3-5 main points)\n• Important insights or revelations\n• Notable quotes or statistics mentioned\n• Main conclusions or recommendations\n\nUse clear, concise bullet points that are easy to scan."

/-- `_build_prompt` from `summarizer.py`.  `max_length`/`focus_areas` follow
Python truthiness: `None`, `0` and `[]` all skip the clause. -/
def _build_prompt (text summary_type : String) (max_length : Option Nat)
    (focus_areas : Option (List String)) : String :=
  let base := "You are an expert at summarizing podcast content. Please analyze the following podcast transcription and provide a "
    ++ summary_type ++ " summary.\n\nTRANSCRIPTION:\n" ++ text ++ "\n\n"
  let base := base ++
    (if summary_type = "brief" then briefInstr
     else if summary_type = "comprehensive" then comprehensiveInstr
     else if summary_type = "bullet_points" then bulletInstr
     else "")
  let base := base ++
    (match max_length with
     | some n => if n ≠ 0 then "\n\nPlease keep the summary under " ++ toString n ++ " words." else ""
     | none => "")
  let base := base ++
    (match focus_areas with
     | some l => if l ≠ [] then "\n\nPlease pay special attention to these topics: " ++ pyJoin ", " l else ""
     | none => "")
  base ++ "\n\nSUMMARY:"

/-- Python `s.split("\n")` helper: split at newlines, keeping empty pieces. -/
def splitNlAux : List Char → List Char → List (List Char)
  | [], cur => [cur.reverse]
  | c :: rest, cur =>
    if c = '\n' then cur.reverse :: splitNlAux rest []
    else splitNlAux rest (c :: cur)

/-- Python `s.split("\n")`. -/
def pyLines (s : String) : List String :=
  (splitNlAux s.data []).map List.asString

/-- The character set of `lstrip("•-*0123456789. ")`. -/
def stripSet : List Char :=
  ['•', '-', '*', '0', '1', '2', '3', '4', '5', '6', '7', '8', '9', '.', ' ']

/-- Python `s.lstrip(chars)` for the bullet-cleaning character set. -/
def pyLstripSet (s : String) : String :=
  (s.data.dropWhile (fun c => stripSet.contains c)).asString

/-- Python `s.startswith(p)`. -/
def strStartsWith (s p : String) : Bool :=
  p.data.isPrefixOf s.data

def bulletStarts : List String := ["•", "-", "*"]

def numberStarts : List String :=
  ["1.", "2.", "3.", "4.", "5.", "6.", "7.", "8.", "9."]

/-- The bullet-point extraction loop of `_process_summary_response`. -/
def extractBulletPoints (response_text : String) : List String :=
  (pyLines response_text).foldl (fun acc rawLine =>
    let line := pyStrip rawLine
    if bulletStarts.any (fun p => strStartsWith line p) ||
        numberStarts.any (fun p => strStartsWith line p) then
      let clean := pyStrip (pyLstripSet line)
      if clean ≠ "" then acc ++ [clean] else acc
    else acc) []

/-- The result dict of `_process_summary_response`: `bullet_points` is present
only for the `bullet_points` summary type. -/
structure ProcessedSummary where
  raw_summary : String
  summary : String
  bullet_points : Option (List String)
deriving DecidableEq, Repr

/-- `_process_summary_response` from `summarizer.py`: `summary` is the raw
response text for every summary type. -/
def _process_summary_response (response_text summary_type : String) : ProcessedSummary :=
  if summary_type = "bullet_points" then
    ⟨response_text, response_text, some (extractBulletPoints response_text)⟩
  else
    ⟨response_text, response_text, none⟩

/-- The dict returned by `summarize`.  The float field `compression_ratio`
(`round(original_length / summary_length, 2)`) is not modelled; its
division-by-zero failure mode is (see `summarize`). -/
structure SummaryResult where
  raw_summary : String
  summary : String
  bullet_points : Option (List String)
  model : String
  summary_type : String
  original_length : Nat
  summary_length : Nat
deriving DecidableEq, Repr

/-- `summarize` from `summarizer.py`, parameterised by the behaviour `api` of
the Gemini call on the built prompt.  Validation `ValueError`s are raised
before the `try` block; every failure inside it (transport error, text-less
response, zero-division while computing `compression_ratio`) is re-raised as
`RuntimeError(f"Summarization failed: {e}")`. -/
def summarize (api : String → ApiResult) (text summary_type : String)
    (max_length : Option Nat) (focus_areas : Option (List String)) :
    Except PyError SummaryResult :=
  if pyWordCount text < 50 then
    .error (.valueError tooShortMsg)
  else if summary_type ∉ validTypes then
    .error (.valueError invalidTypeMsg)
  else
    match api (_build_prompt text summary_type max_length focus_areas) with
    | .failure msg => .error (.runtimeError ("Summarization failed: " ++ msg))
    | .noText info =>
      .error (.runtimeError ("Summarization failed: " ++
        ("No text content in API response" ++ info)))
    | .text t =>
      let summary_text := pyStrip t
      let processed := _process_summary_response summary_text summary_type
      if pyWordCount summary_text = 0 then
        .error (.runtimeError ("Summarization failed: division by zero"))
      else
        .ok ⟨processed.raw_summary, processed.summary, processed.bullet_points,
          "gemini-2.5-flash", summary_type, pyWordCount text, pyWordCount summary_text⟩

/-- One entry of `chunk_summaries` in `summarize_chunks`. -/
structure ChunkSummary where
  chunk_id : Nat
  start_time : ℚ
  end_time : ℚ
  summary : String
  original_length : Nat
deriving DecidableEq, Repr

/-- One iteration of the per-chunk loop of `summarize_chunks`: a failure of the
inner `summarize` call is converted into a placeholder summary. -/
def mkChunkSummary (api : String → ApiResult) (chunk_summary_type : String)
    (i : Nat) (c : Chunk) : ChunkSummary :=
  match summarize api c.text chunk_summary_type (some 200) none with
  | .ok r => ⟨i, c.start_time, c.end_time, r.summary, pyWordCount c.text⟩
  | .error e =>
    ⟨i, c.start_time, c.end_time,
      "[Failed to summarize: " ++ errStr e ++ "]", pyWordCount c.text⟩

/-- The per-chunk loop of `summarize_chunks`, carrying the enumeration index. -/
def chunkSummariesFrom (api : String → ApiResult) (chunk_summary_type : String) :
    Nat → List Chunk → List ChunkSummary
  | _, [] => []
  | i, c :: rest =>
    mkChunkSummary api chunk_summary_type i c ::
      chunkSummariesFrom api chunk_summary_type (i + 1) rest

/-- The `chunk_summaries` list built by `summarize_chunks`. -/
def chunkSummaries (api : String → ApiResult) (chunk_summary_type : String)
    (chunks : List Chunk) : List ChunkSummary :=
  chunkSummariesFrom api chunk_summary_type 0 chunks

/-- Round half to even, the rounding used by Python's `f"{x:.0f}"`. -/
def roundHalfEven (q : ℚ) : ℤ :=
  let f := ⌊q⌋
  let frac := q - (f : ℚ)
  if frac < 1/2 then f
  else if 1/2 < frac then f + 1
  else if f % 2 = 0 then f else f + 1

/-- Python `f"{x:.0f}"` on an exact rational value. -/
def formatF0 (q : ℚ) : String :=
  toString (roundHalfEven q)

/-- The line `f"Segment {cs.start_time:.0f}-{cs.end_time:.0f}s: {cs.summary}"`. -/
def chunkSummaryLine (cs : ChunkSummary) : String :=
  "Segment " ++ formatF0 cs.start_time ++ "-" ++ formatF0 cs.end_time ++ "s: "
    ++ cs.summary

/-- The `combined_summaries` text of `summarize_chunks`:
`"\n\n".join(lines)`. -/
def combinedSummaries (css : List ChunkSummary) : String :=
  pyJoin "\n\n" (css.map chunkSummaryLine)

/-- The dict returned by `summarize_chunks` on success. -/
structure AggregateResult where
  chunk_summaries : List ChunkSummary
  final_summary : SummaryResult
  total_chunks : Nat
  chunk_summary_type : String
  final_summary_type : String
deriving DecidableEq, Repr

/-- `summarize_chunks` from `summarizer.py`, parameterised by the behaviour
`api` of the Gemini call.  The final aggregation call is outside any
`try`/`except`, so its failure propagates. -/
def summarize_chunks (api : String → ApiResult) (chunks : List Chunk)
    (chunk_summary_type final_summary_type : String) :
    Except PyError AggregateResult :=
  let css := chunkSummaries api chunk_summary_type chunks
  let combined := combinedSummaries css
  match summarize api combined final_summary_type none none with
  | .error e => .error e
  | .ok r =>
    .ok ⟨css, r, chunks.length, chunk_summary_type, final_summary_type⟩

instance {ε α : Type} [DecidableEq ε] [DecidableEq α] : DecidableEq (Except ε α) :=
  fun a b =>
    match a, b with
    | .error x, .error y =>
      if h : x = y then isTrue (by rw [h])
      else isFalse (by intro hc; injection hc with h2; exact h h2)
    | .ok x, .ok y =>
      if h : x = y then isTrue (by rw [h])
      else isFalse (by intro hc; injection hc with h2; exact h h2)
    | .error _, .ok _ => isFalse (fun hc => Except.noConfusion hc)
    | .ok _, .error _ => isFalse (fun hc => Except.noConfusion hc)

/-- A collaborator that always throws, with message `"boom"`. -/
def apiFail : String → ApiResult := fun _ => ApiResult.failure "boom"

/-- A 50-word text. -/
def longText : String := pyJoin " " (List.replicate 50 "w")

/-- `e` is a `RuntimeError` whose message starts with
`"Summarization failed: "`. -/
def isWrappedRuntimeError (e : PyError) : Bool :=
  match e with
  | .runtimeError m => strStartsWith m "Summarization failed: "
  | .valueError _ => false

/-- The specification's reading of the combined text: one formatted line per
chunk summary, consecutive lines joined by a blank line (two newlines). -/
def specCombined : List ChunkSummary → String
  | [] => ""
  | [cs] => chunkSummaryLine cs
  | cs :: rest => chunkSummaryLine cs ++ "\n" ++ "\n" ++ specCombined rest

/-- A fold preserves any invariant its step preserves. -/
theorem foldl_invariant {α σ : Type} (f : σ → α → σ) (P : σ → Prop)
    (hf : ∀ s a, P s → P (f s a)) :
    ∀ (l : List α) (s : σ), P s → P (l.foldl f s) := by
  intro l
  induction l with
  | nil => intro s hs; exact hs
  | cons a t ih => intro s hs; exact ih (f s a) (hf s a hs)

theorem chunkStepR_proj (d : ℤ) (st : List ChunkR × ChunkR) (seg : Segment) :
    ((chunkStepR d st seg).1.map ChunkR.chunk, (chunkStepR d st seg).2.chunk) =
      chunkStep d (st.1.map ChunkR.chunk, st.2.chunk) seg := by
  unfold chunkStepR chunkStep
  by_cases h : seg.start ≥ st.2.chunk.end_time
  · by_cases h2 : pyStrip st.2.chunk.text ≠ "" <;> simp [h, h2]
  · simp [h]

/-- The ghost state is sound: dropping it gives back `_create_time_chunks`. -/
theorem createTimeChunksR_proj (segments : List Segment) (d : ℤ) :
    (createTimeChunksR segments d).map ChunkR.chunk = _create_time_chunks segments d := by
  have key : ∀ (l : List Segment) (st : List ChunkR × ChunkR),
      ((l.foldl (chunkStepR d) st).1.map ChunkR.chunk,
        (l.foldl (chunkStepR d) st).2.chunk) =
        l.foldl (chunkStep d) (st.1.map ChunkR.chunk, st.2.chunk) := by
    intro l
    induction l with
    | nil => intro st; rfl
    | cons a t ih =>
      intro st
      have h1 := chunkStepR_proj d st a
      simp only [List.foldl]
      rw [ih (chunkStepR d st a), h1]
  have h := key segments ([], ⟨⟨0, (d : ℚ), "", 0⟩, [], [], false⟩)
  have hfst := congrArg Prod.fst h
  have hsnd := congrArg Prod.snd h
  simp only [List.map_nil] at hfst hsnd
  unfold createTimeChunksR _create_time_chunks
  dsimp only
  rw [← hfst, ← hsnd]
  by_cases hc : pyStrip ((segments.foldl (chunkStepR d)
      ([], ⟨⟨0, (d : ℚ), "", 0⟩, [], [], false⟩)).2.chunk.text) ≠ "" <;>
    simp [hc]

theorem str_append_assoc (a b c : String) : a ++ b ++ c = a ++ (b ++ c) := by
  apply String.ext
  simp [String.data_append]

theorem str_empty_append (s : String) : "" ++ s = s := by
  apply String.ext
  simp [String.data_append]

theorem chunkStep_mono (d : ℤ) (hd : 0 < d) (st : List Chunk × Chunk)
    (seg : Segment) (h : MonoInv d st) : MonoInv d (chunkStep d st seg) := by
  obtain ⟨hpair, hbound, ⟨k, hk⟩, hlen⟩ := h
  have hdq : (0 : ℚ) < (d : ℚ) := by exact_mod_cast hd
  unfold chunkStep
  dsimp only
  by_cases hc : seg.start ≥ st.2.end_time
  · rw [if_pos hc]
    have hstep : st.2.start_time + (d : ℚ) ≤ seg.start := le_trans hlen hc
    have hk1 : ((k + 1 : ℤ) : ℚ) * (d : ℚ) ≤ seg.start := by
      push_cast
      rw [add_mul, one_mul, ← hk]
      exact hstep
    have hfloor : (k + 1 : ℤ) ≤ ⌊seg.start / (d : ℚ)⌋ := by
      rw [Int.le_floor]
      rw [le_div_iff₀ hdq]
      exact_mod_cast hk1
    have hnew : st.2.start_time ≤ (⌊seg.start / (d : ℚ)⌋ : ℚ) * (d : ℚ) := by
      rw [hk]
      have hkq : ((k : ℚ)) ≤ ((⌊seg.start / (d : ℚ)⌋ : ℤ) : ℚ) := by
        have hkz : (k : ℤ) ≤ ⌊seg.start / (d : ℚ)⌋ := le_trans (by omega) hfloor
        exact_mod_cast hkz
      exact mul_le_mul_of_nonneg_right hkq (le_of_lt hdq)
    refine ⟨?_, ?_, ⟨⌊seg.start / (d : ℚ)⌋, rfl⟩, le_refl _⟩
    · by_cases ht : pyStrip st.2.text ≠ ""
      · rw [if_pos ht, List.pairwise_append]
        exact ⟨hpair, List.pairwise_singleton _ _,
          fun a ha b hb => by
            rw [List.mem_singleton] at hb
            subst hb
            exact hbound a ha⟩
      · rw [if_neg ht]
        exact hpair
    · intro c hc'
      by_cases ht : pyStrip st.2.text ≠ ""
      · rw [if_pos ht] at hc'
        rcases List.mem_append.mp hc' with h1 | h1
        · exact le_trans (hbound c h1) hnew
        · rw [List.mem_singleton] at h1
          subst h1
          exact hnew
      · rw [if_neg ht] at hc'
        exact le_trans (hbound c hc') hnew
  · rw [if_neg hc]
    exact ⟨hpair, hbound, ⟨k, hk⟩,
      le_trans hlen (le_max_left _ _)⟩

/-- C7: the `start_time` values of the chunks returned by `_create_time_chunks`
are non-decreasing in emission order (for a positive chunk duration). -/
theorem chunk_start_time_monotone (segments : List Segment) (d : ℤ) (hd : 0 < d) :
    (_create_time_chunks segments d).Pairwise (fun a b => a.start_time ≤ b.start_time) := by
  have hinit : MonoInv d ([], (⟨0, (d : ℚ), "", 0⟩ : Chunk)) := by
    refine ⟨List.Pairwise.nil, by simp, ⟨0, by simp⟩, by simp⟩
  have hinv := foldl_invariant (chunkStep d) (MonoInv d) (chunkStep_mono d hd)
    segments ([], ⟨0, (d : ℚ), "", 0⟩) hinit
  obtain ⟨hpair, hbound, _, _⟩ := hinv
  unfold _create_time_chunks
  dsimp only
  by_cases hc : pyStrip ((segments.foldl (chunkStep d)
      ([], ⟨0, (d : ℚ), "", 0⟩)).2.text) ≠ ""
  · rw [if_pos hc, List.pairwise_append]
    exact ⟨hpair, List.pairwise_singleton _ _,
      fun a ha b hb => by
        rw [List.mem_singleton] at hb
        subst hb
        exact hbound a ha⟩
  · rw [if_neg hc]
    exact hpair

/-- Witness for `chunk_start_time_monotone` at a concrete input. -/
theorem chunk_start_time_monotone_witness :
    (_create_time_chunks [⟨0, 10, "a"⟩, ⟨20, 30, "b"⟩] 300).Pairwise
      (fun a b => a.start_time ≤ b.start_time) :=
  chunk_start_time_monotone [⟨0, 10, "a"⟩, ⟨20, 30, "b"⟩] 300 (by decide)

theorem chunkStepR_widen (d : ℤ) (st : List ChunkR × ChunkR) (seg : Segment)
    (h : WidenInv st) : WidenInv (chunkStepR d st seg) := by
  obtain ⟨hdone, hcur⟩ := h
  unfold chunkStepR
  dsimp only
  by_cases hc : seg.start ≥ st.2.chunk.end_time
  · rw [if_pos hc]
    refine ⟨?_, by simp⟩
    by_cases ht : pyStrip st.2.chunk.text ≠ ""
    · rw [if_pos ht]
      intro r hr
      rcases List.mem_append.mp hr with h1 | h1
      · exact hdone r h1
      · rw [List.mem_singleton] at h1
        subst h1
        exact hcur
    · rw [if_neg ht]
      exact hdone
  · rw [if_neg hc]
    refine ⟨hdone, ?_⟩
    intro s hs
    rcases List.mem_append.mp hs with h1 | h1
    · exact le_trans (hcur s h1) (le_max_left _ _)
    · rw [List.mem_singleton] at h1
      subst h1
      exact le_max_right _ _

/-- C3 (amended): every segment folded into a chunk by the accumulate branch has
`end ≤ end_time`; a segment that opens a new chunk is not so bounded.  The first
conjunct ties the instrumented builder back to `_create_time_chunks`. -/
theorem chunk_widening_accumulated (segments : List Segment) (d : ℤ) :
    (createTimeChunksR segments d).map ChunkR.chunk = _create_time_chunks segments d ∧
    ∀ r ∈ createTimeChunksR segments d, ∀ s ∈ r.accSegs, s.«end» ≤ r.chunk.end_time := by
  refine ⟨createTimeChunksR_proj segments d, ?_⟩
  have hinit : WidenInv ([], (⟨⟨0, (d : ℚ), "", 0⟩, [], [], false⟩ : ChunkR)) := by
    exact ⟨by simp, by simp⟩
  have hinv := foldl_invariant (chunkStepR d) WidenInv (chunkStepR_widen d)
    segments ([], ⟨⟨0, (d : ℚ), "", 0⟩, [], [], false⟩) hinit
  obtain ⟨hdone, hcur⟩ := hinv
  unfold createTimeChunksR
  dsimp only
  by_cases hc : pyStrip ((segments.foldl (chunkStepR d)
      ([], ⟨⟨0, (d : ℚ), "", 0⟩, [], [], false⟩)).2.chunk.text) ≠ ""
  · rw [if_pos hc]
    intro r hr
    rcases List.mem_append.mp hr with h1 | h1
    · exact hdone r h1
    · rw [List.mem_singleton] at h1
      subst h1
      exact hcur
  · rw [if_neg hc]
    exact hdone

/-- Witness for `chunk_widening_accumulated` at a concrete input: the chunk
built from segment `{0, 10, "a"}` has `end_time = 300 ≥ 10`. -/
theorem chunk_widening_accumulated_witness :
    (createTimeChunksR [⟨0, 10, "a"⟩] 300).map ChunkR.chunk =
      _create_time_chunks [⟨0, 10, "a"⟩] 300 ∧
    (Segment.mk 0 10 "a").«end» ≤
      (ChunkR.mk ⟨0, 300, " a", 1⟩ [⟨0, 10, "a"⟩] [⟨0, 10, "a"⟩] false).chunk.end_time :=
  ⟨(chunk_widening_accumulated [⟨0, 10, "a"⟩] 300).1,
    (chunk_widening_accumulated [⟨0, 10, "a"⟩] 300).2
      ⟨⟨0, 300, " a", 1⟩, [⟨0, 10, "a"⟩], [⟨0, 10, "a"⟩], false⟩ (by decide)
      ⟨0, 10, "a"⟩ (by decide)⟩

/-- C3 (counterexample): a segment that opens a new chunk and ends after the
chunk's nominal end is not covered by the widening: the single segment
`{305, 700, "b"}` is assigned to the single produced chunk, whose `end_time`
is `600 < 700`. -/
theorem chunk_widening_counterexample :
    _create_time_chunks [⟨305, 700, "b"⟩] 300 = [⟨300, 600, "b", 1⟩] ∧
    ¬ ((700 : ℚ) ≤ (600 : ℚ)) := by
  constructor
  · simp only [_create_time_chunks, chunkStep, List.foldl]
    norm_num
    decide
  · norm_num

theorem chunkStep_nonblank (d : ℤ) (st : List Chunk × Chunk) (seg : Segment)
    (h : NonBlankInv st) : NonBlankInv (chunkStep d st seg) := by
  unfold chunkStep
  dsimp only
  by_cases hc : seg.start ≥ st.2.end_time
  · rw [if_pos hc]
    by_cases ht : pyStrip st.2.text ≠ ""
    · rw [if_pos ht]
      intro c hcm
      rcases List.mem_append.mp hcm with h1 | h1
      · exact h c h1
      · rw [List.mem_singleton] at h1
        subst h1
        exact ht
    · rw [if_neg ht]
      exact h
  · rw [if_neg hc]
    exact h

/-- C5: `_create_time_chunks` never emits a chunk whose text strips to the empty
string, and an empty segment list produces no chunks at all. -/
theorem chunks_never_whitespace_only (segments : List Segment) (d : ℤ) :
    (∀ c ∈ _create_time_chunks segments d, ¬ pyStrip c.text = "") ∧
    _create_time_chunks [] d = [] := by
  constructor
  · have hinv := foldl_invariant (chunkStep d) NonBlankInv (chunkStep_nonblank d)
      segments ([], ⟨0, (d : ℚ), "", 0⟩) (by intro c hcm; cases hcm)
    unfold _create_time_chunks
    dsimp only
    by_cases hc : pyStrip ((segments.foldl (chunkStep d)
        ([], ⟨0, (d : ℚ), "", 0⟩)).2.text) ≠ ""
    · rw [if_pos hc]
      intro c hcm
      rcases List.mem_append.mp hcm with h1 | h1
      · exact hinv c h1
      · rw [List.mem_singleton] at h1
        subst h1
        exact hc
    · rw [if_neg hc]
      exact hinv
  · unfold _create_time_chunks
    dsimp only [List.foldl]
    rw [if_neg (by decide)]

/-- Witness for `chunks_never_whitespace_only` at a concrete input. -/
theorem chunks_never_whitespace_only_witness :
    ¬ pyStrip (Chunk.mk 0 300 " a" 1).text = "" ∧
    _create_time_chunks [] 300 = [] :=
  ⟨(chunks_never_whitespace_only [⟨0, 10, "a"⟩] 300).1
      ⟨0, 300, " a", 1⟩ (by decide),
    (chunks_never_whitespace_only [⟨0, 10, "a"⟩] 300).2⟩

theorem str_append_empty (s : String) : s ++ "" = s := by
  apply String.ext
  simp [String.data_append]

theorem pyJoin_concat (sep t : String) :
    ∀ (l : List String), l ≠ [] → pyJoin sep (l ++ [t]) = pyJoin sep l ++ sep ++ t
  | [], h => absurd rfl h
  | [a], _ => rfl
  | a :: b :: rest, _ => by
    have ih := pyJoin_concat sep t (b :: rest) (by simp)
    show a ++ sep ++ pyJoin sep ((b :: rest) ++ [t]) = a ++ sep ++ pyJoin sep (b :: rest) ++ sep ++ t
    rw [ih, ← str_append_assoc, ← str_append_assoc]

theorem leadSpaceJoin_concat (t : String) :
    ∀ (l : List String), leadSpaceJoin (l ++ [t]) = leadSpaceJoin l ++ " " ++ t
  | [] => by
    show " " ++ t ++ "" = "" ++ " " ++ t
    rw [str_append_empty, str_empty_append]
  | a :: rest => by
    have ih := leadSpaceJoin_concat t rest
    show " " ++ a ++ leadSpaceJoin (rest ++ [t]) = " " ++ a ++ leadSpaceJoin rest ++ " " ++ t
    rw [ih, ← str_append_assoc, ← str_append_assoc]

theorem chunkStepR_text (d : ℤ) (st : List ChunkR × ChunkR) (seg : Segment)
    (h : TextInv st) : TextInv (chunkStepR d st seg) := by
  obtain ⟨hdone, hcur⟩ := h
  unfold chunkStepR
  dsimp only
  by_cases hc : seg.start ≥ st.2.chunk.end_time
  · rw [if_pos hc]
    refine ⟨?_, fun _ => ⟨by simp, rfl⟩, fun hch => Bool.noConfusion hch⟩
    by_cases ht : pyStrip st.2.chunk.text ≠ ""
    · rw [if_pos ht]
      intro r hr
      rcases List.mem_append.mp hr with h1 | h1
      · exact hdone r h1
      · rw [List.mem_singleton] at h1
        subst h1
        exact hcur
    · rw [if_neg ht]
      exact hdone
  · rw [if_neg hc]
    refine ⟨hdone, ?_, ?_⟩
    · intro hfr
      obtain ⟨hne, htext⟩ := hcur.1 hfr
      constructor
      · simp
      · show st.2.chunk.text ++ " " ++ seg.text = _
        rw [htext, List.map_append, List.map_singleton,
          pyJoin_concat _ _ _ (by simpa using hne)]
    · intro hfr
      have htext := hcur.2 hfr
      show st.2.chunk.text ++ " " ++ seg.text = _
      rw [htext, List.map_append, List.map_singleton, leadSpaceJoin_concat]

/-- C4 (amended): each chunk's text is the space-joined concatenation of its
segments' texts in order, except that the chunk grown from the initial empty
chunk carries one leading space before each segment text.  The first conjunct
ties the instrumented builder back to `_create_time_chunks`. -/
theorem chunk_text_join_amended (segments : List Segment) (d : ℤ) :
    (createTimeChunksR segments d).map ChunkR.chunk = _create_time_chunks segments d ∧
    ∀ r ∈ createTimeChunksR segments d,
      (r.fromRollover = true → r.chunk.text = pyJoin " " (r.segs.map Segment.text)) ∧
      (r.fromRollover = false → r.chunk.text = leadSpaceJoin (r.segs.map Segment.text)) := by
  refine ⟨createTimeChunksR_proj segments d, ?_⟩
  have hinit : TextInv ([], (⟨⟨0, (d : ℚ), "", 0⟩, [], [], false⟩ : ChunkR)) := by
    exact ⟨by simp, fun hch => Bool.noConfusion hch, fun _ => rfl⟩
  have hinv := foldl_invariant (chunkStepR d) TextInv (chunkStepR_text d)
    segments ([], ⟨⟨0, (d : ℚ), "", 0⟩, [], [], false⟩) hinit
  obtain ⟨hdone, hcur⟩ := hinv
  have hout : ∀ r ∈ createTimeChunksR segments d, TextOk r := by
    unfold createTimeChunksR
    dsimp only
    by_cases hc : pyStrip ((segments.foldl (chunkStepR d)
        ([], ⟨⟨0, (d : ℚ), "", 0⟩, [], [], false⟩)).2.chunk.text) ≠ ""
    · rw [if_pos hc]
      intro r hr
      rcases List.mem_append.mp hr with h1 | h1
      · exact hdone r h1
      · rw [List.mem_singleton] at h1
        subst h1
        exact hcur
    · rw [if_neg hc]
      exact hdone
  intro r hr
  exact ⟨fun hfr => ((hout r hr).1 hfr).2, (hout r hr).2⟩

/-- Witness for `chunk_text_join_amended` at a concrete input: the initial chunk
over segment `{0, 10, "a"}` has text `" a"` = `leadSpaceJoin ["a"]`. -/
theorem chunk_text_join_amended_witness :
    (createTimeChunksR [⟨0, 10, "a"⟩] 300).map ChunkR.chunk =
      _create_time_chunks [⟨0, 10, "a"⟩] 300 ∧
    (ChunkR.mk ⟨0, 300, " a", 1⟩ [⟨0, 10, "a"⟩] [⟨0, 10, "a"⟩] false).chunk.text =
      leadSpaceJoin (([⟨0, 10, "a"⟩] : List Segment).map Segment.text) :=
  ⟨(chunk_text_join_amended [⟨0, 10, "a"⟩] 300).1,
    ((chunk_text_join_amended [⟨0, 10, "a"⟩] 300).2
      ⟨⟨0, 300, " a", 1⟩, [⟨0, 10, "a"⟩], [⟨0, 10, "a"⟩], false⟩ (by decide)).2 rfl⟩

/-- C4 (counterexample): on segments `[{0,10,"a"},{20,30,"b"}]` with
`chunk_duration = 300` the produced chunk text is `" a b"` (leading space),
not the claimed `"a b"`. -/
theorem chunk_text_join_counterexample :
    _create_time_chunks [⟨0, 10, "a"⟩, ⟨20, 30, "b"⟩] 300 = [⟨0, 300, " a b", 2⟩] ∧
    _create_time_chunks [⟨0, 10, "a"⟩, ⟨20, 30, "b"⟩] 300 ≠ [⟨0, 300, "a b", 2⟩] := by
  exact ⟨by decide, by decide⟩

/-- C6: when a segment starts at or beyond the current chunk's (possibly
widened) end time, the loop body opens a new chunk at the duration-aligned
window `floor(start / duration) * duration` of width `duration`, and emits the
current chunk exactly when its text is not whitespace-only.  The last conjunct
is the window-rollover example from the specification. -/
theorem chunk_window_rollover (d : ℤ) (done : List Chunk) (cur : Chunk)
    (seg : Segment) (h : seg.start ≥ cur.end_time) :
    (chunkStep d (done, cur) seg).2 =
      ⟨(⌊seg.start / (d : ℚ)⌋ : ℚ) * (d : ℚ),
        (⌊seg.start / (d : ℚ)⌋ : ℚ) * (d : ℚ) + (d : ℚ), seg.text, 1⟩ ∧
    (chunkStep d (done, cur) seg).1 =
      (if pyStrip cur.text ≠ "" then done ++ [cur] else done) ∧
    (_create_time_chunks [⟨0, 10, "a"⟩, ⟨305, 310, "b"⟩] 300).map
        (fun c => (c.start_time, c.end_time, c.segment_count)) =
      [((0 : ℚ), (300 : ℚ), 1), ((300 : ℚ), (600 : ℚ), 1)] := by
  have hx : _create_time_chunks [⟨0, 10, "a"⟩, ⟨305, 310, "b"⟩] 300 =
      [⟨0, 300, " a", 1⟩, ⟨300, 600, "b", 1⟩] := by
    simp only [_create_time_chunks, chunkStep, List.foldl]
    norm_num
    decide
  refine ⟨?_, ?_, by rw [hx]; decide⟩
  · unfold chunkStep
    dsimp only
    rw [if_pos h]
  · unfold chunkStep
    dsimp only
    rw [if_pos h]

/-- Witness for `chunk_window_rollover` at a concrete input. -/
theorem chunk_window_rollover_witness :
    (chunkStep 300 ([], ⟨0, 300, " a", 1⟩) ⟨305, 310, "b"⟩).2 =
      ⟨(⌊(Segment.mk 305 310 "b").start / ((300 : ℤ) : ℚ)⌋ : ℚ) * ((300 : ℤ) : ℚ),
        (⌊(Segment.mk 305 310 "b").start / ((300 : ℤ) : ℚ)⌋ : ℚ) * ((300 : ℤ) : ℚ) +
          ((300 : ℤ) : ℚ), "b", 1⟩ ∧
    (chunkStep 300 ([], ⟨0, 300, " a", 1⟩) ⟨305, 310, "b"⟩).1 =
      (if pyStrip (Chunk.mk 0 300 " a" 1).text ≠ ""
        then [] ++ [⟨0, 300, " a", 1⟩] else []) ∧
    (_create_time_chunks [⟨0, 10, "a"⟩, ⟨305, 310, "b"⟩] 300).map
        (fun c => (c.start_time, c.end_time, c.segment_count)) =
      [((0 : ℚ), (300 : ℚ), 1), ((300 : ℚ), (600 : ℚ), 1)] :=
  chunk_window_rollover 300 [] ⟨0, 300, " a", 1⟩ ⟨305, 310, "b"⟩ (by decide)

theorem chunkSummariesFrom_length (api : String → ApiResult) (cst : String) :
    ∀ (i : Nat) (l : List Chunk),
      (chunkSummariesFrom api cst i l).length = l.length
  | _, [] => rfl
  | i, _ :: rest => by
    simp [chunkSummariesFrom, chunkSummariesFrom_length api cst (i + 1) rest]

theorem chunkSummariesFrom_get? (api : String → ApiResult) (cst : String) :
    ∀ (i j : Nat) (l : List Chunk) (c : Chunk), l.get? j = some c →
      (chunkSummariesFrom api cst i l).get? j =
        some (mkChunkSummary api cst (i + j) c)
  | _, _, [], _, h => by simp at h
  | i, 0, x :: _, c, h => by
    simp at h
    subst h
    simp [chunkSummariesFrom]
  | i, j + 1, x :: rest, c, h => by
    simp only [List.get?] at h
    have ih := chunkSummariesFrom_get? api cst (i + 1) j rest c h
    simp only [chunkSummariesFrom, List.get?]
    rw [ih]
    congr 2
    omega

/-- C1: `summarize_chunks` produces exactly one `ChunkSummary` per input chunk,
in input order, with `chunk_id` the 0-based position; a failing per-chunk
`summarize` call yields a placeholder embedding the error text, a succeeding one
yields its summary — for every behaviour of the collaborator. -/
theorem summarize_chunks_per_chunk_isolation (api : String → ApiResult)
    (cst : String) (chunks : List Chunk) :
    (chunkSummaries api cst chunks).length = chunks.length ∧
    ∀ (i : Nat) (c : Chunk), chunks.get? i = some c →
      (∀ e : PyError, summarize api c.text cst (some 200) none = .error e →
        (chunkSummaries api cst chunks).get? i =
          some ⟨i, c.start_time, c.end_time,
            "[Failed to summarize: " ++ errStr e ++ "]", pyWordCount c.text⟩) ∧
      (∀ r : SummaryResult, summarize api c.text cst (some 200) none = .ok r →
        (chunkSummaries api cst chunks).get? i =
          some ⟨i, c.start_time, c.end_time, r.summary, pyWordCount c.text⟩) := by
  refine ⟨chunkSummariesFrom_length api cst 0 chunks, ?_⟩
  intro i c hget
  have h := chunkSummariesFrom_get? api cst 0 i chunks c hget
  rw [Nat.zero_add] at h
  unfold chunkSummaries
  constructor
  · intro e he
    rw [h]
    unfold mkChunkSummary
    rw [he]
  · intro r hr
    rw [h]
    unfold mkChunkSummary
    rw [hr]

/-- Witness for `summarize_chunks_per_chunk_isolation`: on a two-word chunk the
inner call fails (input too short) and the entry is the placeholder. -/
theorem summarize_chunks_per_chunk_isolation_witness :
    (chunkSummaries apiFail "brief" [⟨0, 300, "hello world", 2⟩]).length = 1 ∧
    (chunkSummaries apiFail "brief" [⟨0, 300, "hello world", 2⟩]).get? 0 =
      some ⟨0, (Chunk.mk 0 300 "hello world" 2).start_time,
        (Chunk.mk 0 300 "hello world" 2).end_time,
        "[Failed to summarize: " ++ errStr (PyError.valueError tooShortMsg) ++ "]",
        pyWordCount (Chunk.mk 0 300 "hello world" 2).text⟩ :=
  ⟨(summarize_chunks_per_chunk_isolation apiFail "brief"
      [⟨0, 300, "hello world", 2⟩]).1,
    ((summarize_chunks_per_chunk_isolation apiFail "brief"
      [⟨0, 300, "hello world", 2⟩]).2 0 ⟨0, 300, "hello world", 2⟩ rfl).1
      (PyError.valueError tooShortMsg) (by decide)⟩

/-- C2: a failure of the final aggregation `summarize` call is not caught by
`summarize_chunks`: the same error propagates and no `AggregateResult` is
returned. -/
theorem summarize_chunks_aggregation_failure_propagates
    (api : String → ApiResult) (chunks : List Chunk)
    (cst ft : String) (e : PyError)
    (h : summarize api (combinedSummaries (chunkSummaries api cst chunks))
        ft none none = .error e) :
    summarize_chunks api chunks cst ft = .error e := by
  unfold summarize_chunks
  dsimp only
  rw [h]

/-- Witness for `summarize_chunks_aggregation_failure_propagates`: with no
chunks the combined text is empty, the aggregation call fails with the
input-too-short `ValueError`, and `summarize_chunks` fails with that error. -/
theorem summarize_chunks_aggregation_failure_propagates_witness :
    summarize_chunks apiFail [] "brief" "comprehensive" =
      .error (.valueError tooShortMsg) :=
  summarize_chunks_aggregation_failure_propagates apiFail [] "brief"
    "comprehensive" (.valueError tooShortMsg) (by decide)

/-- C8: `summarize` raises the input-too-short `ValueError` exactly when the
input has fewer than 50 whitespace-separated words, for every API behaviour
(the check precedes any API interaction); with 50 or more words that error is
never raised. -/
theorem summarize_input_too_short_iff (api : String → ApiResult)
    (text st : String) (ml : Option Nat) (fa : Option (List String)) :
    (pyWordCount text < 50 →
      summarize api text st ml fa = .error (.valueError tooShortMsg)) ∧
    (50 ≤ pyWordCount text →
      summarize api text st ml fa ≠ .error (.valueError tooShortMsg)) := by
  constructor
  · intro h
    unfold summarize
    rw [if_pos h]
  · intro h
    unfold summarize
    rw [if_neg (by omega)]
    by_cases hv : st ∉ validTypes
    · rw [if_pos hv]
      intro hc
      injection hc with h1
      injection h1 with h2
      exact absurd h2 (by decide)
    · rw [if_neg hv]
      cases happ : api (_build_prompt text st ml fa) with
      | failure msg =>
        intro hc
        injection hc with h1
        exact PyError.noConfusion h1
      | noText info =>
        intro hc
        injection hc with h1
        exact PyError.noConfusion h1
      | text t =>
        dsimp only
        by_cases hz : pyWordCount (pyStrip t) = 0
        · rw [if_pos hz]
          intro hc
          injection hc with h1
          exact PyError.noConfusion h1
        · rw [if_neg hz]
          intro hc
          exact Except.noConfusion hc

/-- Witness for `summarize_input_too_short_iff`: a 2-word text fails, a 50-word
text does not fail with the input-too-short error. -/
theorem summarize_input_too_short_iff_witness :
    summarize apiFail "hello world" "brief" none none =
      .error (.valueError tooShortMsg) ∧
    summarize apiFail longText "brief" none none ≠
      .error (.valueError tooShortMsg) :=
  ⟨(summarize_input_too_short_iff apiFail "hello world" "brief" none none).1
      (by decide),
    (summarize_input_too_short_iff apiFail longText "brief" none none).2
      (by decide)⟩

theorem strStartsWith_append (p m : String) : strStartsWith (p ++ m) p = true := by
  unfold strStartsWith
  rw [List.isPrefixOf_iff_prefix, String.data_append]
  exact List.prefix_append _ _

/-- C10: every failure of `summarize` is either one of the two validation
`ValueError`s — raised before any API interaction and not wrapped — or a
`RuntimeError` whose message starts with `"Summarization failed: "`. -/
theorem summarize_error_discrimination (api : String → ApiResult)
    (text st : String) (ml : Option Nat) (fa : Option (List String)) (e : PyError)
    (h : summarize api text st ml fa = .error e) :
    (e = .valueError tooShortMsg ∧ pyWordCount text < 50) ∨
    (e = .valueError invalidTypeMsg ∧ st ∉ validTypes ∧ 50 ≤ pyWordCount text) ∨
    isWrappedRuntimeError e = true := by
  unfold summarize at h
  by_cases h1 : pyWordCount text < 50
  · rw [if_pos h1] at h
    injection h with h2
    exact Or.inl ⟨h2.symm, h1⟩
  · rw [if_neg h1] at h
    by_cases h2 : st ∉ validTypes
    · rw [if_pos h2] at h
      injection h with h3
      exact Or.inr (Or.inl ⟨h3.symm, h2, by omega⟩)
    · rw [if_neg h2] at h
      refine Or.inr (Or.inr ?_)
      cases happ : api (_build_prompt text st ml fa) with
      | failure msg =>
        rw [happ] at h
        injection h with h3
        rw [← h3]
        exact strStartsWith_append _ _
      | noText info =>
        rw [happ] at h
        injection h with h3
        rw [← h3]
        rw [← str_append_assoc]
        exact strStartsWith_append _ _
      | text t =>
        rw [happ] at h
        dsimp only at h
        by_cases hz : pyWordCount (pyStrip t) = 0
        · rw [if_pos hz] at h
          injection h with h3
          rw [← h3]
          decide
        · rw [if_neg hz] at h
          exact Except.noConfusion h

/-- Witness for `summarize_error_discrimination`: a transport failure on a
valid input surfaces as a wrapped `RuntimeError`. -/
theorem summarize_error_discrimination_witness :
    ((PyError.runtimeError "Summarization failed: boom") = .valueError tooShortMsg ∧
      pyWordCount longText < 50) ∨
    ((PyError.runtimeError "Summarization failed: boom") = .valueError invalidTypeMsg ∧
      "brief" ∉ validTypes ∧ 50 ≤ pyWordCount longText) ∨
    isWrappedRuntimeError (PyError.runtimeError "Summarization failed: boom") = true :=
  summarize_error_discrimination apiFail longText "brief" none none
    (.runtimeError "Summarization failed: boom") (by decide)

theorem combinedSummaries_eq_spec : ∀ (css : List ChunkSummary),
    combinedSummaries css = specCombined css
  | [] => rfl
  | [cs] => rfl
  | cs1 :: cs2 :: rest => by
    have ih := combinedSummaries_eq_spec (cs2 :: rest)
    show chunkSummaryLine cs1 ++ "\n\n" ++ combinedSummaries (cs2 :: rest) =
      chunkSummaryLine cs1 ++ "\n" ++ "\n" ++ specCombined (cs2 :: rest)
    rw [ih, str_append_assoc (chunkSummaryLine cs1) "\n" "\n"]
    rfl

/-- C9: the combined text handed to the final aggregation call is exactly the
spec-side format — `"Segment {start:.0f}-{end:.0f}s: {summary}"` lines joined
by blank lines — and `summarize_chunks` calls `summarize` on it. -/
theorem combined_summaries_format :
    (∀ css : List ChunkSummary, combinedSummaries css = specCombined css) ∧
    ∀ (api : String → ApiResult) (chunks : List Chunk) (cst ft : String),
      summarize_chunks api chunks cst ft =
        (match summarize api (specCombined (chunkSummaries api cst chunks))
            ft none none with
         | .error e => .error e
         | .ok r => .ok ⟨chunkSummaries api cst chunks, r, chunks.length, cst, ft⟩) := by
  refine ⟨combinedSummaries_eq_spec, ?_⟩
  intro api chunks cst ft
  unfold summarize_chunks
  dsimp only
  rw [combinedSummaries_eq_spec]
